import Mathlib

/-!
Verification development for the Nova Physics collision-resolution core:
the coefficient mixer and resolution data structures of
`include/novaphysics/resolution.h`, the resolution-cache update and
sequential-impulse velocity solver described by the specification, and the
generic array utility of `src/array.c`.

Modelling conventions:
* `nv_float` (a C `double`) is modelled as `ℝ` where square roots are
  needed (the coefficient mixer) and as `ℚ` in the cache/solver embedding,
  so that the latter is executable; floating-point rounding is out of scope.
* C pointers held in the generic array are modelled as elements of an
  arbitrary type with decidable equality (the C code compares pointers
  with `==`).
* `size_t` is modelled as `ℕ`, with the 64-bit wrap of `(size_t)(-1)`
  written explicitly as `2 ^ 64 - 1`.
-/

namespace Nova

/-- Coefficient mixing type, from `resolution.h`: the method used to mix
coefficient values such as restitution and friction. -/
inductive nvCoefficientMix where
  | AVG
  | MUL
  | SQRT
  | MIN
  | MAX
deriving DecidableEq, Repr

/-- Mix two coefficient values, from `nv_mix_coefficients` in
`resolution.h`, restricted to the five recognized enum values:
AVG is (a + b) / 2, MUL is a * b, SQRT is sqrt (a * b),
MIN and MAX are the usual minimum and maximum. -/
noncomputable def nv_mix_coefficients (a b : ℝ) : nvCoefficientMix → ℝ
  | .AVG => (a + b) / 2
  | .MUL => a * b
  | .SQRT => Real.sqrt (a * b)
  | .MIN => min a b
  | .MAX => max a b

/-- Error raised by the default branch of `nv_mix_coefficients`. -/
inductive nvError where
  | unknownCoefficientMix
deriving DecidableEq, Repr

/-- `nv_mix_coefficients` with the C enum argument modelled as its
underlying integer, so that values outside the five declared enumerators
are representable (mode numbers 0..4 are the declaration order of
`nvCoefficientMix` in `resolution.h`).  Modelled from the spec: the
`NV_ERROR` macro reached by the `default:` branch is not under `src/`;
the specification describes an unrecognized mode as a fatal error (a hard
process abort, per its design notes), so the default branch is embedded
as an `Except.error` result and the dead `return 0.0` after the abort is
never reached. -/
noncomputable def nv_mix_coefficients_checked (a b : ℝ) : ℕ → Except nvError ℝ
  | 0 => .ok ((a + b) / 2)
  | 1 => .ok (a * b)
  | 2 => .ok (Real.sqrt (a * b))
  | 3 => .ok (min a b)
  | 4 => .ok (max a b)
  | _ => .error .unknownCoefficientMix

end Nova

namespace Nova

/-- Swap-removal at index `i`, the shared removal step of `nvArray_pop`
and `nvArray_remove` in `array.c`: the element formerly at the last
position overwrites position `i` and the size shrinks by one.  (The C
code additionally nulls the slot just past the new size, which is
unobservable in the list model.) -/
def swapRemove {α : Type} (l : List α) (i : ℕ) : List α :=
  match l.getLast? with
  | some last => (l.set i last).dropLast
  | none => []

/-- Pop the element at `index`, from `nvArray_pop` in `array.c`: the C
loop finds `i == index` exactly when `index < size`; out of range it
returns `NULL` (here `none`) and leaves the array untouched. -/
def nvArray_pop {α : Type} (l : List α) (index : ℕ) : Option α × List α :=
  if h : index < l.length then (some l[index], swapRemove l index)
  else (none, l)

/-- Remove the first occurrence of `elem`, from `nvArray_remove` in
`array.c`: the C loop compares pointers with `==` (modelled as decidable
equality) and returns the index of the first match after swap-removing
it; with no match it returns `(size_t)(-1)`, written `2 ^ 64 - 1` for
the 64-bit `size_t` of the reference platform. -/
def nvArray_remove {α : Type} [DecidableEq α] (l : List α) (e : α) : ℕ × List α :=
  if e ∈ l then (l.indexOf e, swapRemove l (l.indexOf e))
  else (2 ^ 64 - 1, l)

/-- 2D vector, from `nvVector2` in `vector.h`; components in ℚ for the
cache/solver embedding. -/
structure nvVector2 where
  x : ℚ
  y : ℚ
deriving DecidableEq

def vadd (u v : nvVector2) : nvVector2 := ⟨u.x + v.x, u.y + v.y⟩

def vsub (u v : nvVector2) : nvVector2 := ⟨u.x - v.x, u.y - v.y⟩

def smul (s : ℚ) (v : nvVector2) : nvVector2 := ⟨s * v.x, s * v.y⟩

def dot (u v : nvVector2) : ℚ := u.x * v.x + u.y * v.y

def cross (u v : nvVector2) : ℚ := u.x * v.y - u.y * v.x

/-- Perpendicular (tangent) direction of a normal vector. -/
def perp (v : nvVector2) : nvVector2 := ⟨-v.y, v.x⟩

/-- Cross product of an angular velocity scalar with a lever arm. -/
def angCross (w : ℚ) (v : nvVector2) : nvVector2 := ⟨-w * v.y, w * v.x⟩

/-- Rigid-body state consumed from the external body registry (spec §6):
position, linear/angular velocity, inverse mass, inverse inertia, and
per-body friction/restitution coefficients. -/
structure nvBody where
  position : nvVector2
  linear_velocity : nvVector2
  angular_velocity : ℚ
  invmass : ℚ
  invinertia : ℚ
  friction : ℚ
  restitution : ℚ
deriving DecidableEq

/-- Collision resolution states, from `nvResolutionState` in
`resolution.h`. -/
inductive nvResolutionState where
  | FIRST
  | NORMAL
  | CACHED
deriving DecidableEq

/-- Contact point data, from `nvContact` in `resolution.h`. -/
structure nvContact where
  position : nvVector2
  ra : nvVector2
  rb : nvVector2
  velocity_bias : ℚ
  position_bias : ℚ
  mass_normal : ℚ
  mass_tangent : ℚ
  jn : ℚ
  jb : ℚ
  jt : ℚ
deriving DecidableEq

/-- Collision resolution record, from `nvResolution` in `resolution.h`.
The non-owning body pointers are modelled as handles into the external
registry; the fixed-capacity two-slot contact array with its explicit
`contact_count` is modelled as a list whose length the invariants bound
by 2. -/
structure nvResolution where
  collision : Bool
  a : ℕ
  b : ℕ
  normal : nvVector2
  depth : ℚ
  friction : ℚ
  state : nvResolutionState
  lifetime : ℤ
  contacts : List nvContact
  contact_count : ℕ
deriving DecidableEq

/-- Raw manifold supplied by the external narrow phase (spec §6):
collision flag, normal, depth, and up to 2 contact positions. -/
structure nvManifold where
  collision : Bool
  normal : nvVector2
  depth : ℚ
  points : List nvVector2
deriving DecidableEq

/-- Configuration chosen by the driver (spec §6): the coefficient mixer
for the configured mixing mode (abstracted to a binary function, since
the SQRT mode is irrational), the cached-lifetime budget in ticks, the
squared contact-matching distance threshold, and the position-correction
bias/slop factors. -/
structure nvSpaceConfig where
  mix : ℚ → ℚ → ℚ
  max_lifetime : ℤ
  threshold : ℚ
  baumgarte : ℚ
  slop : ℚ

/-- Relative velocity at a contact point, from both bodies' linear and
angular velocity and the lever arms ra/rb (spec §4.3 step 1). -/
def relativeVelocity (a b : nvBody) (ra rb : nvVector2) : nvVector2 :=
  vsub (vadd b.linear_velocity (angCross b.angular_velocity rb))
    (vadd a.linear_velocity (angCross a.angular_velocity ra))

/-- Effective mass along a direction, derived from both bodies' inverse
mass and inverse inertia and the lever arms ra/rb (spec §3). -/
def effectiveMass (a b : nvBody) (ra rb dir : nvVector2) : ℚ :=
  1 / (a.invmass + b.invmass +
    a.invinertia * (cross ra dir) ^ 2 + b.invinertia * (cross rb dir) ^ 2)

/-- Modelled from the spec: construction of a fresh contact point during
`ResolutionCache.update` (spec §4.2); the C routine that fills
`nvContact` lives in the collision/space translation units, which are
not under `src/`.  ra/rb are the contact position minus each body's
center of mass, the effective masses come from `effectiveMass`, the
restitution velocity bias and penetration position bias are refreshed
from current body state, and all accumulated impulses start at zero. -/
def mkContact (cfg : nvSpaceConfig) (a b : nvBody) (normal : nvVector2)
    (depth : ℚ) (p : nvVector2) : nvContact :=
  let ra := vsub p a.position
  let rb := vsub p b.position
  { position := p
    ra := ra
    rb := rb
    velocity_bias :=
      cfg.mix a.restitution b.restitution * dot (relativeVelocity a b ra rb) normal
    position_bias := cfg.baumgarte * max (depth - cfg.slop) 0
    mass_normal := effectiveMass a b ra rb normal
    mass_tangent := effectiveMass a b ra rb (perp normal)
    jn := 0
    jb := 0
    jt := 0 }

/-- Squared distance between two points. -/
def dist2 (u v : nvVector2) : ℚ := (u.x - v.x) ^ 2 + (u.y - v.y) ^ 2

/-- Nearest previous contact to a new contact position (spec §4.2 and
§9: nearest-position matching). -/
def nearestContact (p : nvVector2) : List nvContact → Option nvContact
  | [] => none
  | c :: rest =>
    match nearestContact p rest with
    | none => some c
    | some c2 => if dist2 c.position p ≤ dist2 c2.position p then some c else some c2

/-- Modelled from the spec: warm starting of one new contact against the
previous tick's contacts (spec §4.2) — the nearest previous contact
within the matching threshold donates its accumulated jn/jt, everything
else is refreshed from current body state; with no match the contact
keeps zero impulses. -/
def warmStartContact (cfg : nvSpaceConfig) (old : List nvContact)
    (fresh : nvContact) : nvContact :=
  match nearestContact fresh.position old with
  | some c =>
    if dist2 c.position fresh.position ≤ cfg.threshold
    then { fresh with jn := c.jn, jt := c.jt }
    else fresh
  | none => fresh

/-- Modelled from the spec: the per-pair behavior of
`ResolutionCache.update` (spec §4.2); the C implementation
(`nvResolution_update` and its callers in the space translation unit) is
not under `src/`.  The argument is the cached record for the pair, if
any; the result is the record after the tick, `none` meaning the pair
has no record (not created, or evicted).
* no record and a colliding manifold: a fresh FIRST record with the
  configured maximum lifetime, freshly mixed friction, and zero-impulse
  contacts built from the manifold points;
* existing record and a colliding manifold: contacts rebuilt from the
  manifold points with warm-started impulses, mixed coefficients
  recomputed, state advanced to NORMAL, lifetime reset to the maximum;
* existing record and a separated manifold: state CACHED, lifetime
  decremented by one, and eviction once the lifetime reaches zero. -/
def nvResolution_update (cfg : nvSpaceConfig) (bodies : ℕ → nvBody)
    (pair : ℕ × ℕ) (m : nvManifold) :
    Option nvResolution → Option nvResolution
  | none =>
    if m.collision then
      let a := bodies pair.1
      let b := bodies pair.2
      let cs := m.points.map (mkContact cfg a b m.normal m.depth)
      some
        { collision := true
          a := pair.1
          b := pair.2
          normal := m.normal
          depth := m.depth
          friction := cfg.mix a.friction b.friction
          state := .FIRST
          lifetime := cfg.max_lifetime
          contacts := cs
          contact_count := cs.length }
    else none
  | some r =>
    if m.collision then
      let a := bodies r.a
      let b := bodies r.b
      let cs := m.points.map
        (fun p => warmStartContact cfg r.contacts (mkContact cfg a b m.normal m.depth p))
      some
        { r with
          collision := true
          normal := m.normal
          depth := m.depth
          friction := cfg.mix a.friction b.friction
          state := .NORMAL
          lifetime := cfg.max_lifetime
          contacts := cs
          contact_count := cs.length }
    else
      let lt := r.lifetime - 1
      if lt = 0 then none
      else some { r with collision := false, state := .CACHED, lifetime := lt }

/-- Apply an impulse at a lever arm to one body: the linear velocity
changes by the impulse scaled by the inverse mass, the angular velocity
by the inverse inertia times the lever-arm cross product. -/
def applyImpulse (bod : nvBody) (r j : nvVector2) : nvBody :=
  { bod with
    linear_velocity := vadd bod.linear_velocity (smul bod.invmass j)
    angular_velocity := bod.angular_velocity + bod.invinertia * cross r j }

/-- Clamp a value into the interval from `lo` to `hi`. -/
def clampQ (x lo hi : ℚ) : ℚ := max lo (min x hi)

/-- Modelled from the spec: the normal half of one sequential-impulse
contact solve (spec §4.3 step 2) — the impulse delta is
−mass_normal · (relative velocity · normal − velocity bias), the
accumulated jn is clamped to be nonnegative, and the applied difference
acts on both bodies with opposite signs. -/
def solveNormal (normal : nvVector2) (a b : nvBody) (c : nvContact) :
    nvBody × nvBody × nvContact :=
  let jn0 :=
    max (c.jn +
      -c.mass_normal * (dot (relativeVelocity a b c.ra c.rb) normal - c.velocity_bias)) 0
  let pn := smul (jn0 - c.jn) normal
  (applyImpulse a c.ra (smul (-1) pn), applyImpulse b c.rb pn, { c with jn := jn0 })

/-- Modelled from the spec: the tangential half of one sequential-impulse
contact solve (spec §4.3 step 3) — computed analogously along the
tangent with mass_tangent, with the accumulated jt clamped into the
Coulomb cone bounded by friction times the just-updated jn. -/
def solveTangent (friction : ℚ) (normal : nvVector2) (a b : nvBody)
    (c : nvContact) : nvBody × nvBody × nvContact :=
  let t := perp normal
  let jt0 :=
    clampQ (c.jt + -c.mass_tangent * dot (relativeVelocity a b c.ra c.rb) t)
      (-(friction * c.jn)) (friction * c.jn)
  let pt := smul (jt0 - c.jt) t
  (applyImpulse a c.ra (smul (-1) pt), applyImpulse b c.rb pt, { c with jt := jt0 })

/-- One contact point solved for velocity: normal step then tangential
step (spec §4.3 steps 1–3). -/
def solveContactVelocity (friction : ℚ) (normal : nvVector2) (a b : nvBody)
    (c : nvContact) : nvBody × nvBody × nvContact :=
  let s := solveNormal normal a b c
  solveTangent friction normal s.1 s.2.1 s.2.2

/-- All contacts of one record solved in registration order, threading
the two body states through. -/
def solveContacts (friction : ℚ) (normal : nvVector2) :
    nvBody → nvBody → List nvContact → nvBody × nvBody × List nvContact
  | a, b, [] => (a, b, [])
  | a, b, c :: rest =>
    let s := solveContactVelocity friction normal a b c
    let s2 := solveContacts friction normal s.1 s.2.1 rest
    (s2.1, s2.2.1, s.2.2 :: s2.2.2)

/-- Write one body back into the registry. -/
def setBody (reg : ℕ → nvBody) (i : ℕ) (bod : nvBody) : ℕ → nvBody :=
  fun j => if j = i then bod else reg j

/-- Modelled from the spec: one record solved for velocity — its
contacts in registration order, the updated bodies written back to the
registry (spec §4.3). -/
def solveResolution (reg : ℕ → nvBody) (res : nvResolution) :
    (ℕ → nvBody) × nvResolution :=
  let s := solveContacts res.friction res.normal (reg res.a) (reg res.b) res.contacts
  (setBody (setBody reg res.a s.1) res.b s.2.1, { res with contacts := s.2.2 })

/-- One velocity-solve pass over all active records, in registration
order (spec §4.3). -/
def solveVelocityPass : (ℕ → nvBody) → List nvResolution →
    (ℕ → nvBody) × List nvResolution
  | reg, [] => (reg, [])
  | reg, r :: rest =>
    let s := solveResolution reg r
    let s2 := solveVelocityPass s.1 rest
    (s2.1, s.2 :: s2.2)

/-- Modelled from the spec: `ConstraintSolver.solveVelocity` — the given
number of passes over all records (spec §4.3). -/
def solveVelocity (reg : ℕ → nvBody) (rs : List nvResolution) :
    ℕ → (ℕ → nvBody) × List nvResolution
  | 0 => (reg, rs)
  | k + 1 =>
    let s := solveVelocity reg rs k
    solveVelocityPass s.1 s.2

/-- Well-formedness of a resolution record's contact storage: the
explicit count equals the number of stored contacts and never exceeds
the fixed capacity of 2. -/
def resolutionWF (r : nvResolution) : Prop :=
  r.contact_count = r.contacts.length ∧ r.contact_count ≤ 2

instance (r : nvResolution) : Decidable (resolutionWF r) :=
  inferInstanceAs (Decidable (_ ∧ _))

/-- Concrete body used by the witnesses. -/
def bodyW : nvBody :=
  { position := ⟨0, 0⟩
    linear_velocity := ⟨0, 0⟩
    angular_velocity := 0
    invmass := 1
    invinertia := 0
    friction := 1/2
    restitution := 0 }

/-- Concrete configuration used by the witnesses: AVG mixing, lifetime
budget 3. -/
def cfgW : nvSpaceConfig :=
  { mix := fun a b => (a + b) / 2
    max_lifetime := 3
    threshold := 1/100
    baumgarte := 0
    slop := 0 }

/-- Concrete body registry used by the witnesses. -/
def bodiesW : ℕ → nvBody := fun _ => bodyW

/-- Concrete colliding one-point manifold used by the witnesses. -/
def manifoldW : nvManifold :=
  { collision := true, normal := ⟨0, 1⟩, depth := 1/10, points := [⟨0, 0⟩] }

/-- Concrete separated manifold used by the witnesses. -/
def manifoldSepW : nvManifold :=
  { collision := false, normal := ⟨0, 1⟩, depth := 0, points := [] }

/-- The contact produced by `mkContact` at the witness inputs. -/
def contactW : nvContact :=
  { position := ⟨0, 0⟩
    ra := ⟨0, 0⟩
    rb := ⟨0, 0⟩
    velocity_bias := 0
    position_bias := 0
    mass_normal := 1/2
    mass_tangent := 1/2
    jn := 0
    jb := 0
    jt := 0 }

/-- The record produced by `nvResolution_update` from no cached record
at the witness inputs. -/
def resW : nvResolution :=
  { collision := true
    a := 0
    b := 1
    normal := ⟨0, 1⟩
    depth := 1/10
    friction := 1/2
    state := .FIRST
    lifetime := 3
    contacts := [contactW]
    contact_count := 1 }

/-- C1: for every pair of coefficient values and every one of the five
mixing modes AVG, MUL, SQRT, MIN, MAX, `nv_mix_coefficients` is
commutative in its two coefficient arguments. -/
theorem nv_mix_coefficients_comm (a b : ℝ) (mode : nvCoefficientMix) :
    nv_mix_coefficients a b mode = nv_mix_coefficients b a mode := by
  cases mode <;> simp only [nv_mix_coefficients]
  · ring
  · ring
  · rw [mul_comm]
  · exact min_comm a b
  · exact max_comm a b

/-- C2: per mode, `nv_mix_coefficients` computes AVG as (a + b) / 2,
MUL as a * b, SQRT as sqrt (a * b) (stated under the precondition
0 ≤ a and 0 ≤ b), MIN as min, MAX as max; and the SQRT example
mix 0.5 0.8 is within 1/1000 of 0.6325. -/
theorem nv_mix_coefficients_modes (a b : ℝ) :
    nv_mix_coefficients a b .AVG = (a + b) / 2 ∧
    nv_mix_coefficients a b .MUL = a * b ∧
    (0 ≤ a → 0 ≤ b → nv_mix_coefficients a b .SQRT = Real.sqrt (a * b)) ∧
    nv_mix_coefficients a b .MIN = min a b ∧
    nv_mix_coefficients a b .MAX = max a b ∧
    |nv_mix_coefficients (1/2) (4/5) .SQRT - 6325/10000| < 1/1000 := by
  refine ⟨rfl, rfl, fun _ _ => rfl, rfl, rfl, ?_⟩
  have h1 : nv_mix_coefficients (1/2 : ℝ) (4/5) .SQRT = Real.sqrt (2/5) := by
    show Real.sqrt ((1/2 : ℝ) * (4/5)) = Real.sqrt (2/5)
    norm_num
  rw [h1, abs_lt]
  have hsq : Real.sqrt (2/5 : ℝ) ^ 2 = 2/5 :=
    Real.sq_sqrt (by norm_num)
  have hnn : (0 : ℝ) ≤ Real.sqrt (2/5) := Real.sqrt_nonneg _
  constructor <;> nlinarith [hsq, hnn]

/-- Witness for C2 at the concrete input a = 0.5, b = 0.8. -/
theorem nv_mix_coefficients_modes_witness :
    nv_mix_coefficients (1/2) (4/5) .SQRT = Real.sqrt ((1/2) * (4/5)) :=
  (nv_mix_coefficients_modes (1/2) (4/5)).2.2.1 (by norm_num) (by norm_num)

/-- C3: for every mode value outside the five recognized enumerators
(number 5 and above), mixing reports the fatal
unknown-coefficient-mixing-function error and never returns an `ok`
value. -/
theorem nv_mix_coefficients_checked_unknown (a b : ℝ) (m : ℕ) (hm : 5 ≤ m) :
    nv_mix_coefficients_checked a b m = .error .unknownCoefficientMix ∧
    ∀ v : ℝ, nv_mix_coefficients_checked a b m ≠ .ok v := by
  obtain ⟨k, rfl⟩ : ∃ k, m = k + 5 := ⟨m - 5, by omega⟩
  exact ⟨rfl, fun v h => by simp [nv_mix_coefficients_checked] at h⟩

/-- Witness for C3 at the concrete mode value 7. -/
theorem nv_mix_coefficients_checked_unknown_witness :
    nv_mix_coefficients_checked 0 1 7 = .error .unknownCoefficientMix ∧
    ∀ v : ℝ, nv_mix_coefficients_checked 0 1 7 ≠ .ok v :=
  nv_mix_coefficients_checked_unknown 0 1 7 (by norm_num)

theorem solveNormal_jn_nonneg (n : nvVector2) (a b : nvBody) (c : nvContact) :
    0 ≤ ((solveNormal n a b c).2.2).jn :=
  le_max_right _ _

theorem solveContactVelocity_jn_nonneg (f : ℚ) (n : nvVector2) (a b : nvBody)
    (c : nvContact) : 0 ≤ ((solveContactVelocity f n a b c).2.2).jn :=
  solveNormal_jn_nonneg n a b c

theorem clampQ_abs_le (x M : ℚ) (hM : 0 ≤ M) : |clampQ x (-M) M| ≤ M :=
  abs_le.mpr ⟨le_max_left _ _, max_le (by linarith) (min_le_right _ _)⟩

theorem solveContactVelocity_cone (f : ℚ) (n : nvVector2) (a b : nvBody)
    (c : nvContact) (hf : 0 ≤ f) :
    |((solveContactVelocity f n a b c).2.2).jt| ≤
      f * ((solveContactVelocity f n a b c).2.2).jn :=
  clampQ_abs_le _ _ (mul_nonneg hf (solveNormal_jn_nonneg n a b c))

theorem solveContacts_spec (f : ℚ) (n : nvVector2) :
    ∀ (cs : List nvContact) (a b : nvBody),
      ∀ c2 ∈ (solveContacts f n a b cs).2.2,
        0 ≤ c2.jn ∧ (0 ≤ f → |c2.jt| ≤ f * c2.jn) := by
  intro cs
  induction cs with
  | nil =>
    intro a b c2 h
    simp [solveContacts] at h
  | cons c rest ih =>
    intro a b c2 h
    simp only [solveContacts] at h
    rcases List.mem_cons.mp h with h1 | h2
    · subst h1
      exact ⟨solveContactVelocity_jn_nonneg f n a b c,
        fun hf => solveContactVelocity_cone f n a b c hf⟩
    · exact ih _ _ c2 h2

theorem solveContacts_length (f : ℚ) (n : nvVector2) :
    ∀ (cs : List nvContact) (a b : nvBody),
      ((solveContacts f n a b cs).2.2).length = cs.length := by
  intro cs
  induction cs with
  | nil => intro a b; rfl
  | cons c rest ih =>
    intro a b
    simp only [solveContacts, List.length_cons]
    rw [ih]

theorem solveResolution_friction (reg : ℕ → nvBody) (r : nvResolution) :
    ((solveResolution reg r).2).friction = r.friction := rfl

theorem solveResolution_count (reg : ℕ → nvBody) (r : nvResolution) :
    ((solveResolution reg r).2).contact_count = r.contact_count := rfl

theorem solveResolution_contacts (reg : ℕ → nvBody) (r : nvResolution) :
    ((solveResolution reg r).2).contacts =
      (solveContacts r.friction r.normal (reg r.a) (reg r.b) r.contacts).2.2 := rfl

theorem solveVelocityPass_mem :
    ∀ (rs : List nvResolution) (reg : ℕ → nvBody) (r2 : nvResolution),
      r2 ∈ (solveVelocityPass reg rs).2 →
      ∃ reg2 r, r ∈ rs ∧ r2 = (solveResolution reg2 r).2 := by
  intro rs
  induction rs with
  | nil =>
    intro reg r2 h
    simp [solveVelocityPass] at h
  | cons r rest ih =>
    intro reg r2 h
    simp only [solveVelocityPass] at h
    rcases List.mem_cons.mp h with h1 | h2
    · exact ⟨reg, r, List.mem_cons_self r rest, h1⟩
    · obtain ⟨reg2, r0, hr0, he⟩ := ih _ r2 h2
      exact ⟨reg2, r0, List.mem_cons_of_mem r hr0, he⟩

theorem solveVelocityPass_friction :
    ∀ (rs : List nvResolution) (reg : ℕ → nvBody),
      ((solveVelocityPass reg rs).2).map nvResolution.friction =
        rs.map nvResolution.friction := by
  intro rs
  induction rs with
  | nil => intro reg; rfl
  | cons r rest ih =>
    intro reg
    simp only [solveVelocityPass, List.map_cons]
    rw [ih]
    rfl

theorem solveVelocity_friction (k : ℕ) :
    ∀ (reg : ℕ → nvBody) (rs : List nvResolution),
      ((solveVelocity reg rs k).2).map nvResolution.friction =
        rs.map nvResolution.friction := by
  induction k with
  | zero => intro reg rs; rfl
  | succ n ih =>
    intro reg rs
    simp only [solveVelocity]
    rw [solveVelocityPass_friction]
    exact ih reg rs

theorem solveResolution_WF (reg : ℕ → nvBody) (r : nvResolution)
    (h : resolutionWF r) : resolutionWF (solveResolution reg r).2 := by
  obtain ⟨h1, h2⟩ := h
  constructor
  · rw [solveResolution_count, solveResolution_contacts, solveContacts_length]
    exact h1
  · rw [solveResolution_count]
    exact h2

theorem solveVelocityPass_WF (rs : List nvResolution) (reg : ℕ → nvBody)
    (h : ∀ r ∈ rs, resolutionWF r) :
    ∀ r2 ∈ (solveVelocityPass reg rs).2, resolutionWF r2 := by
  intro r2 h2
  obtain ⟨reg2, r, hr, rfl⟩ := solveVelocityPass_mem rs reg r2 h2
  exact solveResolution_WF reg2 r (h r hr)

theorem solveVelocity_WF (iters : ℕ) :
    ∀ (reg : ℕ → nvBody) (rs : List nvResolution),
      (∀ r ∈ rs, resolutionWF r) →
      ∀ r2 ∈ (solveVelocity reg rs iters).2, resolutionWF r2 := by
  induction iters with
  | zero => intro reg rs h r2 h2; exact h r2 h2
  | succ k ih =>
    intro reg rs h r2 h2
    simp only [solveVelocity] at h2
    exact solveVelocityPass_WF _ _ (ih reg rs h) r2 h2

theorem freshRecord_spec (cfg : nvSpaceConfig) (bodies : ℕ → nvBody)
    (pair : ℕ × ℕ) (m : nvManifold) (r2 : nvResolution)
    (h : nvResolution_update cfg bodies pair m none = some r2) :
    r2.state = .FIRST ∧ ∀ c ∈ r2.contacts, c.jn = 0 ∧ c.jt = 0 ∧ c.jb = 0 := by
  simp only [nvResolution_update] at h
  split at h
  · obtain rfl := (Option.some.inj h).symm
    refine ⟨rfl, ?_⟩
    intro c hc
    obtain ⟨p, hp, rfl⟩ := List.mem_map.mp hc
    exact ⟨rfl, rfl, rfl⟩
  · exact absurd h (by simp)

theorem swapRemove_length {α : Type} (l : List α) (i : ℕ) :
    (swapRemove l i).length = l.length - 1 := by
  cases hl : l.getLast? with
  | none =>
    rw [List.getLast?_eq_none_iff] at hl
    simp [swapRemove, hl]
  | some last => simp [swapRemove, hl]

theorem swapRemove_getElem? {α : Type} (l : List α) (i j : ℕ)
    (hj : j < l.length - 1) :
    (swapRemove l i)[j]? = if j = i then l[l.length - 1]? else l[j]? := by
  have hne : l ≠ [] := by
    intro h
    subst h
    simp at hj
  obtain ⟨last, hl⟩ := Option.isSome_iff_exists.mp (List.getLast?_isSome.mpr hne)
  have hlast : l[l.length - 1]? = some last := by
    rw [← List.getLast?_eq_getElem?]
    exact hl
  rw [swapRemove, hl, List.getElem?_dropLast, List.length_set, if_pos hj,
    List.getElem?_set]
  by_cases hij : j = i
  · subst hij
    rw [if_pos rfl, if_pos rfl, if_pos (by omega), hlast]
  · rw [if_neg (fun h => hij h.symm), if_neg hij]

/-- C4: a record created or updated by the cache, and every record after
any number of solver passes, stores its contacts in the fixed-capacity
two-slot array: the explicit contact count equals the stored number of
contacts and is 0, 1, or 2. -/
theorem nvResolution_contact_count_invariant (cfg : nvSpaceConfig)
    (bodies : ℕ → nvBody) (pair : ℕ × ℕ) (m : nvManifold)
    (hm : m.points.length ≤ 2) :
    (∀ r2, nvResolution_update cfg bodies pair m none = some r2 →
      resolutionWF r2) ∧
    (∀ r r2, resolutionWF r →
      nvResolution_update cfg bodies pair m (some r) = some r2 →
      resolutionWF r2) ∧
    (∀ (reg : ℕ → nvBody) (rs : List nvResolution) (iters : ℕ),
      (∀ r ∈ rs, resolutionWF r) →
      ∀ r2 ∈ (solveVelocity reg rs iters).2, resolutionWF r2) := by
  refine ⟨?_, ?_, fun reg rs iters h => solveVelocity_WF iters reg rs h⟩
  · intro r2 h
    simp only [nvResolution_update] at h
    split at h
    · obtain rfl := (Option.some.inj h).symm
      exact ⟨rfl, by simpa using hm⟩
    · exact absurd h (by simp)
  · intro r r2 hwf h
    simp only [nvResolution_update] at h
    split at h
    · obtain rfl := (Option.some.inj h).symm
      exact ⟨rfl, by simpa using hm⟩
    · split at h
      · exact absurd h (by simp)
      · obtain rfl := (Option.some.inj h).symm
        exact hwf

/-- Witness for C4 at the concrete one-point manifold, two-body registry
and AVG-mixing configuration. -/
theorem nvResolution_contact_count_invariant_witness :
    manifoldW.points.length ≤ 2 ∧
    ((∀ r2, nvResolution_update cfgW bodiesW (0, 1) manifoldW none = some r2 →
        resolutionWF r2) ∧
      (∀ r r2, resolutionWF r →
        nvResolution_update cfgW bodiesW (0, 1) manifoldW (some r) = some r2 →
        resolutionWF r2) ∧
      (∀ (reg : ℕ → nvBody) (rs : List nvResolution) (iters : ℕ),
        (∀ r ∈ rs, resolutionWF r) →
        ∀ r2 ∈ (solveVelocity reg rs iters).2, resolutionWF r2)) :=
  ⟨by simp [manifoldW],
    nvResolution_contact_count_invariant cfgW bodiesW (0, 1) manifoldW
      (by simp [manifoldW])⟩

/-- C5: a record just created by the cache update for a pair with no
cached record is in state FIRST and every one of its contact points has
accumulated impulses jn = jt = jb = 0. -/
theorem nvResolution_update_first (cfg : nvSpaceConfig) (bodies : ℕ → nvBody)
    (pair : ℕ × ℕ) (m : nvManifold) (r2 : nvResolution)
    (h : nvResolution_update cfg bodies pair m none = some r2) :
    r2.state = .FIRST ∧ ∀ c ∈ r2.contacts, c.jn = 0 ∧ c.jt = 0 ∧ c.jb = 0 :=
  freshRecord_spec cfg bodies pair m r2 h

/-- Witness for C5: the record produced from the concrete one-point
manifold is `resW`, in state FIRST with zero impulses. -/
theorem nvResolution_update_first_witness :
    resW.state = .FIRST ∧ ∀ c ∈ resW.contacts, c.jn = 0 ∧ c.jt = 0 ∧ c.jb = 0 :=
  nvResolution_update_first cfgW bodiesW (0, 1) manifoldW resW
    (by simp [nvResolution_update, cfgW, bodiesW, bodyW, manifoldW, resW,
      contactW, mkContact, effectiveMass, relativeVelocity, vadd, vsub, smul,
      dot, cross, perp, angCross]; norm_num)

/-- C6: after any velocity-solve pass (at least one iteration), every
contact of every record has a nonnegative accumulated normal impulse. -/
theorem solveVelocity_jn_nonneg (reg : ℕ → nvBody) (rs : List nvResolution)
    (iters : ℕ) (hi : 1 ≤ iters) :
    ∀ r2 ∈ (solveVelocity reg rs iters).2, ∀ c ∈ r2.contacts, 0 ≤ c.jn := by
  obtain ⟨k, rfl⟩ : ∃ k, iters = k + 1 := ⟨iters - 1, by omega⟩
  intro r2 hr2 c hc
  simp only [solveVelocity] at hr2
  obtain ⟨reg2, r, _, rfl⟩ := solveVelocityPass_mem _ _ _ hr2
  rw [solveResolution_contacts] at hc
  exact (solveContacts_spec r.friction r.normal r.contacts _ _ c hc).1

/-- Witness for C6: one solve iteration over the concrete record list. -/
theorem solveVelocity_jn_nonneg_witness :
    (1 : ℕ) ≤ 1 ∧
    ∀ r2 ∈ (solveVelocity bodiesW [resW] 1).2, ∀ c ∈ r2.contacts, 0 ≤ c.jn :=
  ⟨le_refl 1, solveVelocity_jn_nonneg bodiesW [resW] 1 (le_refl 1)⟩

/-- C7: after any velocity-solve pass (at least one iteration), when the
mixed friction coefficients of the records are nonnegative, every
contact of every record satisfies the friction cone
|jt| ≤ friction · jn with the record's mixed friction coefficient. -/
theorem solveVelocity_friction_cone (reg : ℕ → nvBody)
    (rs : List nvResolution) (iters : ℕ) (hi : 1 ≤ iters)
    (hf : ∀ r ∈ rs, 0 ≤ r.friction) :
    ∀ r2 ∈ (solveVelocity reg rs iters).2, ∀ c ∈ r2.contacts,
      |c.jt| ≤ r2.friction * c.jn := by
  obtain ⟨k, rfl⟩ : ∃ k, iters = k + 1 := ⟨iters - 1, by omega⟩
  intro r2 hr2 c hc
  simp only [solveVelocity] at hr2
  obtain ⟨reg2, r, hr, rfl⟩ := solveVelocityPass_mem _ _ _ hr2
  have hfr : 0 ≤ r.friction := by
    have hmem : r.friction ∈
        ((solveVelocity reg rs k).2).map nvResolution.friction :=
      List.mem_map_of_mem _ hr
    rw [solveVelocity_friction] at hmem
    obtain ⟨r0, hr0, he⟩ := List.mem_map.mp hmem
    rw [← he]
    exact hf r0 hr0
  rw [solveResolution_contacts] at hc
  rw [solveResolution_friction]
  exact (solveContacts_spec r.friction r.normal r.contacts _ _ c hc).2 hfr

/-- Witness for C7: one solve iteration over the concrete record list,
whose single record has mixed friction 1/2. -/
theorem solveVelocity_friction_cone_witness :
    (∀ r ∈ [resW], 0 ≤ r.friction) ∧
    ∀ r2 ∈ (solveVelocity bodiesW [resW] 1).2, ∀ c ∈ r2.contacts,
      |c.jt| ≤ r2.friction * c.jn :=
  have hf : ∀ r ∈ [resW], 0 ≤ r.friction := by
    intro r hr
    rw [List.mem_singleton.mp hr]
    norm_num [resW]
  ⟨hf, solveVelocity_friction_cone bodiesW [resW] 1 (le_refl 1) hf⟩

/-- C8: on a separated manifold (collision = false) an existing record
moves to state CACHED with its lifetime decremented by exactly one,
keeping its contacts; once the lifetime reaches zero the record is
evicted (the update returns no record); and a later fresh overlap of the
pair, starting again from no cached record, produces a FIRST record all
of whose contacts have zero accumulated impulses. -/
theorem nvResolution_update_cached (cfg : nvSpaceConfig)
    (bodies : ℕ → nvBody) (pair : ℕ × ℕ) (m : nvManifold) (r : nvResolution)
    (hm : m.collision = false) :
    (r.lifetime = 1 → nvResolution_update cfg bodies pair m (some r) = none) ∧
    (r.lifetime ≠ 1 → ∃ r2,
      nvResolution_update cfg bodies pair m (some r) = some r2 ∧
      r2.state = .CACHED ∧ r2.lifetime = r.lifetime - 1 ∧
      r2.contacts = r.contacts ∧ r2.contact_count = r.contact_count) ∧
    (∀ (m2 : nvManifold) (r2 : nvResolution),
      nvResolution_update cfg bodies pair m2 none = some r2 →
      r2.state = .FIRST ∧ ∀ c ∈ r2.contacts, c.jn = 0 ∧ c.jt = 0 ∧ c.jb = 0) := by
  refine ⟨?_, ?_, fun m2 r2 h => freshRecord_spec cfg bodies pair m2 r2 h⟩
  · intro h1
    have hl : r.lifetime - 1 = 0 := by omega
    simp [nvResolution_update, hm, hl]
  · intro h1
    have hl : ¬r.lifetime - 1 = 0 := by omega
    refine ⟨{ r with collision := false, state := .CACHED, lifetime := r.lifetime - 1 }, ?_, rfl, rfl, rfl, rfl⟩
    simp [nvResolution_update, hm, hl]

/-- Witness for C8: a record with lifetime 1 is evicted by the concrete
separated manifold; `resW` (lifetime 3) moves to CACHED with lifetime 2;
and the fresh record from the concrete colliding manifold is FIRST with
zero impulses. -/
theorem nvResolution_update_cached_witness :
    nvResolution_update cfgW bodiesW (0, 1) manifoldSepW
      (some { resW with lifetime := 1 }) = none ∧
    (∃ r2, nvResolution_update cfgW bodiesW (0, 1) manifoldSepW (some resW) =
        some r2 ∧
      r2.state = .CACHED ∧ r2.lifetime = resW.lifetime - 1 ∧
      r2.contacts = resW.contacts ∧ r2.contact_count = resW.contact_count) ∧
    (resW.state = .FIRST ∧ ∀ c ∈ resW.contacts, c.jn = 0 ∧ c.jt = 0 ∧ c.jb = 0) :=
  ⟨(nvResolution_update_cached cfgW bodiesW (0, 1) manifoldSepW
      { resW with lifetime := 1 } rfl).1 rfl,
    (nvResolution_update_cached cfgW bodiesW (0, 1) manifoldSepW resW rfl).2.1
      (by norm_num [resW]),
    (nvResolution_update_cached cfgW bodiesW (0, 1) manifoldSepW resW rfl).2.2
      manifoldW resW
      (by simp [nvResolution_update, cfgW, bodiesW, bodyW, manifoldW, resW,
        contactW, mkContact, effectiveMass, relativeVelocity, vadd, vsub, smul,
        dot, cross, perp, angCross]; norm_num)⟩

/-- C9: `nvArray_pop` with an out-of-range index returns `NULL` and
leaves the array unchanged; with `index < size` it returns the element
at `index`, the size shrinks by one, and within the new size the element
formerly at the last position occupies position `index` while every
other position is untouched (swap-removal). -/
theorem nvArray_pop_spec {α : Type} (l : List α) (index : ℕ) :
    (l.length ≤ index → nvArray_pop l index = (none, l)) ∧
    (index < l.length →
      (nvArray_pop l index).1 = l[index]? ∧
      (nvArray_pop l index).2.length = l.length - 1 ∧
      ∀ j, j < l.length - 1 →
        (nvArray_pop l index).2[j]? =
          if j = index then l[l.length - 1]? else l[j]?) := by
  constructor
  · intro h
    rw [nvArray_pop, dif_neg (not_lt.mpr h)]
  · intro h
    rw [nvArray_pop, dif_pos h]
    exact ⟨(List.getElem?_eq_getElem h).symm, swapRemove_length l index,
      fun j hj => swapRemove_getElem? l index j hj⟩

/-- Witness for C9: both branches of the theorem applied to the concrete
array [10, 20, 30], at the out-of-range index 5 and the in-range
index 1. -/
theorem nvArray_pop_spec_witness :
    nvArray_pop ([10, 20, 30] : List ℕ) 5 = (none, [10, 20, 30]) ∧
    ((nvArray_pop ([10, 20, 30] : List ℕ) 1).1 = ([10, 20, 30] : List ℕ)[1]? ∧
      (nvArray_pop ([10, 20, 30] : List ℕ) 1).2.length = 2 ∧
      ∀ j, j < 2 →
        (nvArray_pop ([10, 20, 30] : List ℕ) 1).2[j]? =
          if j = 1 then ([10, 20, 30] : List ℕ)[2]? else ([10, 20, 30] : List ℕ)[j]?) :=
  ⟨(nvArray_pop_spec ([10, 20, 30] : List ℕ) 5).1 (by norm_num),
    (nvArray_pop_spec ([10, 20, 30] : List ℕ) 1).2 (by norm_num)⟩

/-- C10: `nvArray_remove` on a present element returns the index of its
first occurrence, having removed it by moving the last element into its
position; on an absent element it returns `(size_t)(-1) = 2 ^ 64 - 1`,
which exceeds every valid index, and leaves the array unchanged. -/
theorem nvArray_remove_spec {α : Type} [DecidableEq α] (l : List α) (e : α) :
    (e ∉ l → nvArray_remove l e = (2 ^ 64 - 1, l)) ∧
    (e ∉ l → l.length < 2 ^ 64 → l.length ≤ (nvArray_remove l e).1) ∧
    (e ∈ l →
      (nvArray_remove l e).1 = l.indexOf e ∧
      l[(nvArray_remove l e).1]? = some e ∧
      (nvArray_remove l e).2.length = l.length - 1 ∧
      ∀ j, j < l.length - 1 →
        (nvArray_remove l e).2[j]? =
          if j = l.indexOf e then l[l.length - 1]? else l[j]?) := by
  refine ⟨fun h => by rw [nvArray_remove, if_neg h], fun h hlen => ?_, fun h => ?_⟩
  · rw [nvArray_remove, if_neg h]
    omega
  · rw [nvArray_remove, if_pos h]
    have hidx : l.indexOf e < l.length := List.indexOf_lt_length.mpr h
    refine ⟨rfl, ?_, swapRemove_length l _, fun j hj => swapRemove_getElem? l _ j hj⟩
    rw [List.getElem?_eq_getElem hidx, List.getElem_indexOf hidx]

/-- Witness for C10: all three branches of the theorem applied to the
concrete array [10, 20, 30], removing the absent element 7 and the
present element 20. -/
theorem nvArray_remove_spec_witness :
    nvArray_remove ([10, 20, 30] : List ℕ) 7 = (2 ^ 64 - 1, [10, 20, 30]) ∧
    ([10, 20, 30] : List ℕ).length ≤ (nvArray_remove ([10, 20, 30] : List ℕ) 7).1 ∧
    ((nvArray_remove ([10, 20, 30] : List ℕ) 20).1 = ([10, 20, 30] : List ℕ).indexOf 20 ∧
      ([10, 20, 30] : List ℕ)[(nvArray_remove ([10, 20, 30] : List ℕ) 20).1]? = some 20 ∧
      (nvArray_remove ([10, 20, 30] : List ℕ) 20).2.length = 2 ∧
      ∀ j, j < 2 →
        (nvArray_remove ([10, 20, 30] : List ℕ) 20).2[j]? =
          if j = ([10, 20, 30] : List ℕ).indexOf 20
          then ([10, 20, 30] : List ℕ)[2]? else ([10, 20, 30] : List ℕ)[j]?) :=
  ⟨(nvArray_remove_spec ([10, 20, 30] : List ℕ) 7).1 (by decide),
    (nvArray_remove_spec ([10, 20, 30] : List ℕ) 7).2.1 (by decide) (by norm_num),
    (nvArray_remove_spec ([10, 20, 30] : List ℕ) 20).2.2 (by decide)⟩

end Nova
